import Mathlib

/-!
Verification development for the radiology-rag backend.

This file gives a shallow embedding, in Lean 4, of the pure logic of the
backend services that the specification describes:

* `critical_findings_detector.py` — keyword-based detection of critical
  findings, confidence scoring, deduplication and severity ranking;
* `llm_service.py` — the ordered provider fallback chain of
  `generate_content`;
* `ai_analysis_service.py` — section extraction, rule-based report
  validation and the inconsistency-detection pipeline;
* `main.py` — weighted keyword scoring and automatic template selection.

Python strings are modelled as Lean `String` / `List Char` (Python string
indices are code points, as are the entries of `String.data`).  The
confidence scores of the detector are decimal numbers built from the
increments 0.7, 0.1 and 0.3 and clamped to [0, 1]; they are modelled in
exact tenths as naturals in [0, 10], so 0.7 is `7` and the 0.5 threshold
is `5`.  Calls to an external LLM are modelled by an explicit
`Except String String` outcome parameter: `.ok text` is a response,
`.error e` is a raised exception whose `str` is `e`.
-/

/-! ## String utilities shared by the embedded services -/

/-- Lowercasing of a single character, as Python `str.lower` acts on the
ASCII range and the Latin-1 supplement letters. -/
def lowerChar (c : Char) : Char :=
  if 'A' ≤ c ∧ c ≤ 'Z' then Char.ofNat (c.toNat + 32)
  else if 0xC0 ≤ c.toNat ∧ c.toNat ≤ 0xDE ∧ c.toNat ≠ 0xD7 then Char.ofNat (c.toNat + 32)
  else c

/-- Python `s.lower()`. -/
def lowerStr (s : String) : String :=
  String.mk (s.data.map lowerChar)

/-- Containment of one character list in another as a contiguous block. -/
def subListOf (needle : List Char) : List Char → Bool
  | [] => needle.isPrefixOf []
  | c :: t => needle.isPrefixOf (c :: t) || subListOf needle t

/-- Python `needle in hay` (substring containment; the empty string is a
substring of everything). -/
def inStr (needle hay : String) : Bool :=
  subListOf needle.data hay.data

/-- Characters treated as whitespace by Python `str.strip()`, `str.split()`
and the regex class `\s` (on ASCII input). -/
def pyWs (c : Char) : Bool :=
  c == ' ' || c == '\t' || c == '\n' || c == '\r' || c == '\x0b' || c == '\x0c'

/-- Strip leading and trailing whitespace from a character list. -/
def stripList (l : List Char) : List Char :=
  ((l.dropWhile pyWs).reverse.dropWhile pyWs).reverse

/-- Python `s.strip()`. -/
def pyStrip (s : String) : String :=
  String.mk (stripList s.data)

/-- Python `s.strip(chars)`: strip leading and trailing characters drawn
from the given set. -/
def pyStripSet (chars : List Char) (s : String) : String :=
  String.mk (((s.data.dropWhile (chars.contains ·)).reverse.dropWhile
      (chars.contains ·)).reverse)

/-- Python `s.split()`: split on whitespace runs, dropping empty pieces. -/
def pySplitWs (s : String) : List String :=
  (s.data.splitOnP pyWs).map String.mk |>.filter (· ≠ "")

/-- Characters of the slice `l[s:e]`. -/
def sliceList (l : List Char) (s e : Nat) : List Char :=
  (l.take e).drop s

/-- Auxiliary fuelled scan for `countOcc`. -/
def countOccAux (needle : List Char) : List Char → Nat → Nat
  | _, 0 => 0
  | hay, fuel + 1 =>
    if needle ≠ [] ∧ needle.isPrefixOf hay then
      1 + countOccAux needle (hay.drop needle.length) fuel
    else
      match hay with
      | [] => 0
      | _ :: t => countOccAux needle t fuel

/-- Python `hay.count(needle)`: non-overlapping occurrences, scanning left
to right. -/
def countOcc (needle hay : String) : Nat :=
  if needle.data = [] then hay.data.length + 1
  else countOccAux needle.data hay.data (hay.data.length + 1)

/-! ## critical_findings_detector.py -/

/-- Entry of the `findings` list produced by the detector.  The
`confidence` field is in exact tenths (see the header comment). -/
structure Finding where
  text : String
  severity : String
  category : String
  confidence : Nat
  context : String
deriving DecidableEq, Repr

/-- Result dictionary of `detect_critical_findings`. -/
structure DetectResult where
  has_critical : Bool
  findings : List Finding
  highest_severity : Option String
  requires_notification : Bool
deriving DecidableEq, Repr

/-- The `CRITICAL_KEYWORDS` lexicon, in dictionary insertion order. -/
def CRITICAL_KEYWORDS : List (String × List String) :=
  [("critical",
    ["aortic dissection", "aortic rupture", "ruptured aneurysm", "active hemorrhage",
     "active bleeding", "massive hemorrhage", "acute arterial occlusion",
     "acute stroke", "acute ischemic stroke", "hemorrhagic stroke", "subarachnoid hemorrhage",
     "subdural hematoma", "epidural hematoma", "acute hydrocephalus", "brainstem herniation",
     "uncal herniation", "tonsillar herniation", "midline shift",
     "cardiac tamponade", "acute myocardial infarction", "free air in pericardium",
     "tension pneumothorax", "massive pulmonary embolism", "large pulmonary embolism",
     "free air", "pneumoperitoneum", "ruptured spleen", "acute mesenteric ischemia",
     "bowel perforation", "perforated viscus", "acute appendicitis with perforation",
     "necrotizing fasciitis", "gas gangrene", "septic emboli",
     "spinal cord compression", "superior vena cava syndrome"]),
   ("urgent",
    ["pulmonary embolism", "deep vein thrombosis", "expanding aneurysm",
     "aortic aneurysm", "carotid dissection",
     "acute infarct", "acute cerebral infarction", "acute intracranial hemorrhage",
     "mass effect", "acute hydrocephalus",
     "large pneumothorax", "pneumothorax", "lung abscess", "empyema",
     "bowel obstruction", "small bowel obstruction", "large bowel obstruction",
     "acute cholecystitis", "acute pancreatitis", "splenic laceration",
     "hepatic laceration", "renal laceration",
     "abscess", "fluid collection", "acute osteomyelitis",
     "pathologic fracture", "suspicious mass", "likely malignancy"]),
   ("high",
    ["pneumonia", "pyelonephritis", "cellulitis",
     "fracture", "displaced fracture", "comminuted fracture",
     "open fracture", "hip fracture",
     "suspicious nodule", "suspicious lesion", "concerning finding",
     "recommend biopsy", "cannot exclude malignancy"])]

/-- Word characters of the regex class `\w` (ASCII alphanumerics, the
underscore, and Latin-1 supplement letters). -/
def isWordChar (c : Char) : Bool :=
  c.isAlphanum || c == '_' ||
    (0xC0 ≤ c.toNat && c.toNat ≤ 0xFF && c.toNat ≠ 0xD7 && c.toNat ≠ 0xF7)

/-- Test whether the pattern `\b<kw>\b` (compiled with `re.IGNORECASE`)
matches `full` at character position `i`. -/
def kwMatchesAt (kw full : List Char) (i : Nat) : Bool :=
  let rest := full.drop i
  decide (kw.length ≤ rest.length) &&
  (rest.take kw.length).map lowerChar == kw.map lowerChar &&
  (i == 0 || !isWordChar (full.getD (i - 1) ' ')) &&
  (rest.length == kw.length || !isWordChar (rest.getD kw.length ' '))

/-- Fuelled scan underlying `findMatchesKw`. -/
def findMatchesAux (kw full : List Char) : Nat → Nat → List Nat
  | _, 0 => []
  | i, fuel + 1 =>
    if full.length ≤ i then []
    else if kwMatchesAt kw full i then i :: findMatchesAux kw full (i + kw.length) fuel
    else findMatchesAux kw full (i + 1) fuel

/-- Start positions of the matches of `pattern.finditer(full)` for the
compiled pattern `\b<kw>\b`, left to right and non-overlapping. -/
def findMatchesKw (kw full : List Char) : List Nat :=
  findMatchesAux kw full 0 (full.length + 1)

/-- Negation terms of `_calculate_confidence`. -/
def negation_words : List String :=
  ["no", "not", "without", "negative for", "ruled out", "exclude"]

/-- Definitive terms of `_calculate_confidence`. -/
def definitive_words : List String :=
  ["acute", "active", "confirmed", "definite", "identified"]

/-- The `_calculate_confidence` scoring, in exact tenths: base 0.7, plus
0.1 for a repeated keyword, minus 0.3 for a nearby negation term, plus 0.1
for definitive language, clamped to [0, 1]. -/
def calculate_confidence (keyword context full_text : String) : Nat :=
  let count := countOcc (lowerStr keyword) (lowerStr full_text)
  let c0 : Int := 7
  let c1 : Int := if 1 < count then c0 + 1 else c0
  let contextLower := lowerStr context
  let c2 : Int := if negation_words.any (fun w => inStr w contextLower) then c1 - 3 else c1
  let c3 : Int := if definitive_words.any (fun w => inStr w contextLower) then c2 + 1 else c2
  (max 0 (min 10 c3)).toNat

/-- The `_categorize_finding` classification chain. -/
def categorize_finding (keyword : String) : String :=
  let kl := lowerStr keyword
  if ["aortic", "aneurysm", "hemorrhage", "bleeding", "embolism", "thrombosis"].any
      (fun t => inStr t kl) then "vascular"
  else if ["stroke", "hematoma", "hemorrhage", "herniation", "hydrocephalus", "infarct"].any
      (fun t => inStr t kl) then "neurological"
  else if ["pneumothorax", "lung", "pulmonary", "respiratory"].any
      (fun t => inStr t kl) then "respiratory"
  else if ["bowel", "spleen", "hepatic", "abdominal", "mesenteric", "appendicitis"].any
      (fun t => inStr t kl) then "abdominal"
  else if ["cardiac", "myocardial", "pericardium"].any
      (fun t => inStr t kl) then "cardiac"
  else if ["abscess", "necrotizing", "septic", "gangrene"].any
      (fun t => inStr t kl) then "infectious"
  else if ["mass", "malignancy", "suspicious", "nodule"].any
      (fun t => inStr t kl) then "oncologic"
  else if ["fracture", "bone"].any
      (fun t => inStr t kl) then "musculoskeletal"
  else "other"

/-- Findings contributed by one lexicon keyword of one severity: one entry
per regex match, with the 50-character context window around the match. -/
def findingsFor (severity keyword : String) (full : List Char) : List Finding :=
  (findMatchesKw keyword.data full).map (fun s =>
    let e := s + keyword.data.length
    let stop := min full.length (e + 50)
    let context := String.mk (stripList (sliceList full (s - 50) stop))
    { text := keyword
      severity := severity
      category := categorize_finding keyword
      confidence := calculate_confidence keyword context (String.mk full)
      context := context })

/-- Findings accumulated by the keyword loop of `detect_critical_findings`
over `full_text = f"{indication}\n{report_text}"`, before deduplication
and sorting. -/
def raw_findings (report_text indication : String) : List Finding :=
  let full := (indication ++ "\n" ++ report_text).data
  CRITICAL_KEYWORDS.flatMap (fun p => p.2.flatMap (fun kw => findingsFor p.1 kw full))

/-- Deduplication key of `_deduplicate_findings`. -/
def finding_key (f : Finding) : String × String :=
  (lowerStr f.text, f.severity)

/-- Loop of `_deduplicate_findings` with its `seen` set of keys. -/
def dedupAux : List Finding → List (String × String) → List Finding
  | [], _ => []
  | f :: t, seen =>
    if finding_key f ∈ seen then dedupAux t seen
    else f :: dedupAux t (finding_key f :: seen)

/-- The `_deduplicate_findings` pass: keep the first finding of each
`(lowercased text, severity)` key. -/
def deduplicate_findings (findings : List Finding) : List Finding :=
  dedupAux findings []

/-- The `_severity_score` ranking: critical 3, urgent 2, high 1, else 0. -/
def severity_score (s : String) : Nat :=
  if s = "critical" then 3 else if s = "urgent" then 2 else if s = "high" then 1 else 0

/-- Stable insertion used to model Python `sorted(..., reverse=True)`:
skip the findings of strictly higher score, insert before the rest. -/
def insertFinding (f : Finding) : List Finding → List Finding
  | [] => [f]
  | g :: t =>
    if severity_score f.severity < severity_score g.severity then g :: insertFinding f t
    else f :: g :: t

/-- Stable descending sort by severity score, as Python
`sorted(findings, key=severity_score, reverse=True)`. -/
def sortFindings : List Finding → List Finding
  | [] => []
  | f :: t => insertFinding f (sortFindings t)

/-- The `detect_critical_findings` entry point. -/
def detect_critical_findings (report_text : String) (indication : String := "") :
    DetectResult :=
  let findings := sortFindings (deduplicate_findings (raw_findings report_text indication))
  let highest : Option String :=
    match findings with
    | [] => none
    | f :: _ => some f.severity
  { has_critical := decide (0 < findings.length)
    findings := findings
    highest_severity := highest
    requires_notification := decide (highest = some "critical" ∨ highest = some "urgent") }

/-- The `should_notify` check: some critical or urgent finding has
confidence at least 0.5 (an empty list notifies nobody). -/
def should_notify (findings : List Finding) : Bool :=
  match findings with
  | [] => false
  | _ =>
    findings.any (fun f =>
      decide (f.severity = "critical" ∨ f.severity = "urgent") && decide (5 ≤ f.confidence))

/-! ## Lemmas about the detector -/

theorem mem_insertFinding {f g : Finding} {l : List Finding} :
    g ∈ insertFinding f l ↔ g = f ∨ g ∈ l := by
  induction l with
  | nil => simp [insertFinding]
  | cons h t ih =>
    by_cases hc : severity_score f.severity < severity_score h.severity
    · simp only [insertFinding, if_pos hc, List.mem_cons, ih]
      tauto
    · simp only [insertFinding, if_neg hc, List.mem_cons]

theorem mem_sortFindings {g : Finding} {l : List Finding} :
    g ∈ sortFindings l ↔ g ∈ l := by
  induction l with
  | nil => simp [sortFindings]
  | cons f t ih => simp [sortFindings, mem_insertFinding, ih]

theorem pairwise_insertFinding {f : Finding} {l : List Finding}
    (h : l.Pairwise (fun a b => severity_score b.severity ≤ severity_score a.severity)) :
    (insertFinding f l).Pairwise
      (fun a b => severity_score b.severity ≤ severity_score a.severity) := by
  induction l with
  | nil => simp [insertFinding]
  | cons g t ih =>
    rcases List.pairwise_cons.mp h with ⟨hg, ht⟩
    by_cases hc : severity_score f.severity < severity_score g.severity
    · simp only [insertFinding, if_pos hc]
      refine List.pairwise_cons.mpr ⟨?_, ih ht⟩
      intro x hx
      rcases mem_insertFinding.mp hx with rfl | hx
      · omega
      · exact hg x hx
    · simp only [insertFinding, if_neg hc]
      refine List.pairwise_cons.mpr ⟨?_, h⟩
      intro x hx
      rcases List.mem_cons.mp hx with rfl | hx
      · omega
      · have := hg x hx
        omega

theorem pairwise_sortFindings (l : List Finding) :
    (sortFindings l).Pairwise
      (fun a b => severity_score b.severity ≤ severity_score a.severity) := by
  induction l with
  | nil => simp [sortFindings]
  | cons f t ih => exact pairwise_insertFinding ih

theorem filter_insertFinding (k : Nat) (f : Finding) (l : List Finding) :
    (insertFinding f l).filter (fun g => severity_score g.severity == k)
      = (f :: l).filter (fun g => severity_score g.severity == k) := by
  induction l with
  | nil => rfl
  | cons g t ih =>
    by_cases hc : severity_score f.severity < severity_score g.severity
    · simp only [insertFinding, if_pos hc]
      by_cases hf : severity_score f.severity = k
      · have hg : ¬ severity_score g.severity = k := by omega
        simp [List.filter_cons, hf, hg] at ih ⊢
        simpa [List.filter_cons, hg] using ih
      · simp [List.filter_cons, hf] at ih ⊢
        by_cases hg : severity_score g.severity = k <;> simp [List.filter_cons, hg, ih]
    · simp [insertFinding, if_neg hc]

theorem filter_sortFindings (k : Nat) (l : List Finding) :
    (sortFindings l).filter (fun g => severity_score g.severity == k)
      = l.filter (fun g => severity_score g.severity == k) := by
  induction l with
  | nil => rfl
  | cons f t ih =>
    have h := filter_insertFinding k f (sortFindings t)
    by_cases hf : severity_score f.severity = k <;>
      simp [sortFindings, h, List.filter_cons, hf, ih]

theorem dedupAux_sublist (l : List Finding) (seen : List (String × String)) :
    List.Sublist (dedupAux l seen) l := by
  induction l generalizing seen with
  | nil => simp [dedupAux]
  | cons f t ih =>
    by_cases hf : finding_key f ∈ seen
    · simp only [dedupAux, if_pos hf]
      exact List.Sublist.cons f (ih seen)
    · simp only [dedupAux, if_neg hf]
      exact List.Sublist.cons₂ f (ih (finding_key f :: seen))

theorem dedupAux_key_not_seen {l : List Finding} {seen : List (String × String)}
    {g : Finding} (hg : g ∈ dedupAux l seen) : finding_key g ∉ seen := by
  induction l generalizing seen with
  | nil => simp [dedupAux] at hg
  | cons f t ih =>
    by_cases hf : finding_key f ∈ seen
    · exact ih (by simpa [dedupAux, if_pos hf] using hg)
    · simp only [dedupAux, if_neg hf] at hg
      rcases List.mem_cons.mp hg with rfl | hg
      · exact hf
      · have := ih hg
        intro hc
        exact this (List.mem_cons_of_mem _ hc)

theorem dedupAux_keys_nodup (l : List Finding) (seen : List (String × String)) :
    ((dedupAux l seen).map finding_key).Nodup := by
  induction l generalizing seen with
  | nil => simp [dedupAux]
  | cons f t ih =>
    by_cases hf : finding_key f ∈ seen
    · simpa [dedupAux, if_pos hf] using ih seen
    · simp only [dedupAux, if_neg hf, List.map_cons, List.nodup_cons]
      refine ⟨?_, ih (finding_key f :: seen)⟩
      intro hc
      rcases List.mem_map.mp hc with ⟨g, hg, hkey⟩
      exact dedupAux_key_not_seen hg (by simp [hkey])

theorem dedupAux_find (l : List Finding) (seen : List (String × String)) :
    ∀ g ∈ dedupAux l seen,
      l.find? (fun f => decide (finding_key f = finding_key g)) = some g := by
  induction l generalizing seen with
  | nil => simp [dedupAux]
  | cons f t ih =>
    intro g hg
    by_cases hf : finding_key f ∈ seen
    · simp only [dedupAux, if_pos hf] at hg
      have hfind := ih seen g hg
      have hne : ¬ finding_key f = finding_key g := by
        intro hc
        exact dedupAux_key_not_seen hg (hc ▸ hf)
      simp [List.find?_cons, hne, hfind]
    · simp only [dedupAux, if_neg hf] at hg
      rcases List.mem_cons.mp hg with rfl | hg
      · simp [List.find?_cons]
      · have hfind := ih (finding_key f :: seen) g hg
        have hne : ¬ finding_key f = finding_key g := by
          intro hc
          exact dedupAux_key_not_seen hg (by simp [hc])
        simp [List.find?_cons, hne, hfind]

theorem dedupAux_covers (l : List Finding) (seen : List (String × String)) :
    ∀ f ∈ l, finding_key f ∈ seen ∨
      ∃ g ∈ dedupAux l seen, finding_key g = finding_key f := by
  induction l generalizing seen with
  | nil => simp
  | cons h t ih =>
    intro f hf
    by_cases hh : finding_key h ∈ seen
    · simp only [dedupAux, if_pos hh]
      rcases List.mem_cons.mp hf with rfl | hf
      · exact Or.inl hh
      · exact ih seen f hf
    · simp only [dedupAux, if_neg hh]
      rcases List.mem_cons.mp hf with rfl | hf
      · exact Or.inr ⟨f, List.mem_cons_self _ _, rfl⟩
      · rcases ih (finding_key h :: seen) f hf with hmem | ⟨g, hg, hkey⟩
        · rcases List.mem_cons.mp hmem with heq | hmem
          · exact Or.inr ⟨h, List.mem_cons_self _ _, heq.symm⟩
          · exact Or.inl hmem
        · exact Or.inr ⟨g, List.mem_cons_of_mem _ hg, hkey⟩

theorem severity_of_mem_findingsFor {sev kw : String} {full : List Char} {f : Finding}
    (hf : f ∈ findingsFor sev kw full) : f.severity = sev := by
  rcases List.mem_map.mp hf with ⟨s, _, rfl⟩
  rfl

theorem severity_of_mem_raw {report indication : String} {f : Finding}
    (hf : f ∈ raw_findings report indication) :
    f.severity = "critical" ∨ f.severity = "urgent" ∨ f.severity = "high" := by
  simp only [raw_findings, List.mem_flatMap] at hf
  rcases hf with ⟨p, hp, kw, hkw, hf⟩
  have hsev := severity_of_mem_findingsFor hf
  have hfst : p.1 = "critical" ∨ p.1 = "urgent" ∨ p.1 = "high" := by
    have : ∀ q ∈ CRITICAL_KEYWORDS, q.1 = "critical" ∨ q.1 = "urgent" ∨ q.1 = "high" := by
      decide
    exact this p hp
  rw [hsev]
  exact hfst

/-! ## Claim theorems for the detector -/

set_option maxRecDepth 8000

/-- C1 counterexample: on the report `"No evidence of pulmonary embolism"`
the detector returns `requires_notification = true` although the only
finding (severity urgent) has confidence 0.4 < 0.5, so
`requires_notification` is NOT equivalent to "highest severity is critical
or urgent AND some finding of that severity has confidence at least
0.5". -/
theorem requires_notification_counterexample :
    ¬((detect_critical_findings "No evidence of pulmonary embolism" "").requires_notification
        = true ↔
      (((detect_critical_findings "No evidence of pulmonary embolism" "").highest_severity
          = some "critical" ∨
        (detect_critical_findings "No evidence of pulmonary embolism" "").highest_severity
          = some "urgent") ∧
       ∃ f ∈ (detect_critical_findings "No evidence of pulmonary embolism" "").findings,
         some f.severity
            = (detect_critical_findings "No evidence of pulmonary embolism" "").highest_severity
           ∧ 5 ≤ f.confidence)) := by
  decide

/-- C1 (amended): the `requires_notification` field of
`detect_critical_findings` is true exactly when `highest_severity` is
`critical` or `urgent`, with no confidence condition; the confidence ≥ 0.5
gate is implemented only by the separate `should_notify` method, which is
true exactly when some critical or urgent finding has confidence at least
0.5. -/
theorem requires_notification_spec :
    (∀ report indication : String,
      ((detect_critical_findings report indication).requires_notification = true ↔
        ((detect_critical_findings report indication).highest_severity = some "critical" ∨
         (detect_critical_findings report indication).highest_severity = some "urgent")))
    ∧ (∀ findings : List Finding,
        (should_notify findings = true ↔
          ∃ f ∈ findings, (f.severity = "critical" ∨ f.severity = "urgent")
            ∧ 5 ≤ f.confidence)) := by
  constructor
  · intro report indication
    have h : (detect_critical_findings report indication).requires_notification
        = decide ((detect_critical_findings report indication).highest_severity = some "critical"
            ∨ (detect_critical_findings report indication).highest_severity = some "urgent") :=
      rfl
    rw [h]
    simp
  · intro findings
    cases findings with
    | nil => simp [should_notify]
    | cons f t => simp [should_notify, List.any_eq_true]

/-- C4: the text `"No evidence of pulmonary embolism"`, given either as
report text or as indication, yields exactly one finding, for the keyword
`"pulmonary embolism"`, and its confidence is at most 0.4 (base 0.7 minus
0.3 for the negation term in the context window). -/
theorem pulmonary_embolism_negation_confidence :
    (detect_critical_findings "No evidence of pulmonary embolism" "").findings.map
        (fun f => (f.text, f.severity, f.confidence)) = [("pulmonary embolism", "urgent", 4)]
    ∧ (detect_critical_findings "" "No evidence of pulmonary embolism").findings.map
        (fun f => (f.text, f.severity, f.confidence)) = [("pulmonary embolism", "urgent", 4)]
    ∧ (∃ f ∈ (detect_critical_findings "No evidence of pulmonary embolism" "").findings,
        f.text = "pulmonary embolism" ∧ f.confidence ≤ 4) := by
  refine ⟨by decide, by decide, by decide⟩

/-- C5: the findings of `detect_critical_findings` are sorted in
descending severity order (critical 3 > urgent 2 > high 1) by a stable
sort, `highest_severity` is the severity of the first finding after
sorting (or `none` when the list is empty), and whenever some finding is
critical the highest severity is `critical`, regardless of textual
order. -/
theorem detect_severity_order (report indication : String) :
    ((detect_critical_findings report indication).findings).Pairwise
      (fun a b => severity_score b.severity ≤ severity_score a.severity)
    ∧ (detect_critical_findings report indication).highest_severity
        = ((detect_critical_findings report indication).findings.head?).map Finding.severity
    ∧ ((detect_critical_findings report indication).findings = [] →
        (detect_critical_findings report indication).highest_severity = none)
    ∧ ((∃ f ∈ (detect_critical_findings report indication).findings, f.severity = "critical") →
        (detect_critical_findings report indication).highest_severity = some "critical")
    ∧ (∀ k : Nat, ((detect_critical_findings report indication).findings).filter
          (fun g => severity_score g.severity == k)
        = (deduplicate_findings (raw_findings report indication)).filter
          (fun g => severity_score g.severity == k)) := by
  have hfind : (detect_critical_findings report indication).findings
      = sortFindings (deduplicate_findings (raw_findings report indication)) := rfl
  have hhigh : (detect_critical_findings report indication).highest_severity
      = match sortFindings (deduplicate_findings (raw_findings report indication)) with
        | [] => none
        | f :: _ => some f.severity := rfl
  have hpair := pairwise_sortFindings (deduplicate_findings (raw_findings report indication))
  refine ⟨by rw [hfind]; exact hpair, ?_, ?_, ?_, ?_⟩
  · rcases h : sortFindings (deduplicate_findings (raw_findings report indication)) with
      _ | ⟨f, t⟩ <;> simp [hhigh, hfind, h]
  · intro hempty
    rw [hfind] at hempty
    simp [hhigh, hempty]
  · rintro ⟨f, hf, hsev⟩
    rw [hfind] at hf
    rcases h : sortFindings (deduplicate_findings (raw_findings report indication)) with
      _ | ⟨g, t⟩
    · rw [h] at hf
      simp at hf
    · rw [h] at hf hpair
      rcases List.pairwise_cons.mp hpair with ⟨hg, _⟩
      have hmemg : g ∈ raw_findings report indication := by
        have : g ∈ sortFindings (deduplicate_findings (raw_findings report indication)) := by
          rw [h]
          exact List.mem_cons_self _ _
        exact (dedupAux_sublist _ _).subset (mem_sortFindings.mp this)
      have hgsev : g.severity = "critical" := by
        rcases List.mem_cons.mp hf with rfl | hf'
        · exact hsev
        · have h3 : severity_score f.severity = 3 := by rw [hsev]; rfl
          have hle := hg f hf'
          rw [h3] at hle
          rcases severity_of_mem_raw hmemg with hc | hc | hc
          · exact hc
          · exfalso
            rw [hc] at hle
            have h2 : severity_score "urgent" = 2 := rfl
            omega
          · exfalso
            rw [hc] at hle
            have h1 : severity_score "high" = 1 := rfl
            omega
      simp [hhigh, h, hgsev]
  · intro k
    rw [hfind, filter_sortFindings]

/-- C5 witness: in a text containing a high-severity finding first and a
critical one second, the highest severity is critical. -/
theorem detect_severity_order_witness :
    (detect_critical_findings "fracture with midline shift" "").highest_severity
      = some "critical" := by
  exact (detect_severity_order "fracture with midline shift" "").2.2.2.1 (by decide)

/-- C6: deduplication keeps exactly one finding per
`(lowercased keyword, severity)` key — the first occurrence in scan order
— and a keyword matching three times yields a single findings entry. -/
theorem deduplicate_findings_spec :
    (∀ l : List Finding, ((deduplicate_findings l).map finding_key).Nodup)
    ∧ (∀ l : List Finding, List.Sublist (deduplicate_findings l) l)
    ∧ (∀ l : List Finding, ∀ f ∈ l, ∃ g ∈ deduplicate_findings l,
        finding_key g = finding_key f)
    ∧ (∀ l : List Finding, ∀ g ∈ deduplicate_findings l,
        l.find? (fun f => decide (finding_key f = finding_key g)) = some g)
    ∧ (detect_critical_findings "abscess. abscess. abscess." "").findings.map Finding.text
        = ["abscess"] := by
  refine ⟨fun l => dedupAux_keys_nodup l [], fun l => dedupAux_sublist l [],
    fun l f hf => ?_, fun l => dedupAux_find l [], by decide⟩
  rcases dedupAux_covers l [] f hf with h | h
  · simp at h
  · exact h

/-- C6 witness: dedup keeps the first of two findings that share a key up
to lowercasing, and `find?` on the input recovers exactly that first
occurrence. -/
theorem deduplicate_findings_spec_witness :
    [(⟨"abscess", "urgent", "infectious", 8, "c1"⟩ : Finding),
     (⟨"Abscess", "urgent", "infectious", 8, "c2"⟩ : Finding)].find?
      (fun f => decide (finding_key f
          = finding_key (⟨"abscess", "urgent", "infectious", 8, "c1"⟩ : Finding)))
      = some (⟨"abscess", "urgent", "infectious", 8, "c1"⟩ : Finding) := by
  exact deduplicate_findings_spec.2.2.2.1
    [(⟨"abscess", "urgent", "infectious", 8, "c1"⟩ : Finding),
     (⟨"Abscess", "urgent", "infectious", 8, "c2"⟩ : Finding)]
    (⟨"abscess", "urgent", "infectious", 8, "c1"⟩ : Finding) (by decide)

/-- C10: `has_critical` is true exactly when the deduplicated findings
list is non-empty; in particular a text whose only finding is the
high-severity keyword `"pneumonia"` has `has_critical = true`,
`highest_severity = "high"` and `requires_notification = false`. -/
theorem has_critical_iff_findings_nonempty (report indication : String) :
    ((detect_critical_findings report indication).has_critical = true ↔
      (detect_critical_findings report indication).findings ≠ [])
    ∧ (detect_critical_findings "pneumonia" "").has_critical = true
    ∧ (detect_critical_findings "pneumonia" "").highest_severity = some "high"
    ∧ (detect_critical_findings "pneumonia" "").requires_notification = false := by
  refine ⟨?_, by decide, by decide, by decide⟩
  have h : (detect_critical_findings report indication).has_critical
      = decide (0 < (detect_critical_findings report indication).findings.length) := rfl
  rw [h]
  simp [List.length_pos]

/-! ## llm_service.py -/

/-- Provider names that `generate_content` dispatches on; any other name
falls through the `if/elif` chain and is skipped. -/
def known_providers : List String :=
  ["gemini", "openai", "anthropic"]

/-- Failure reason recorded for a provider outcome (`str(e)` of the raised
exception; empty for a success, which records nothing). -/
def errText : Except String String → String
  | .error e => e
  | .ok _ => ""

/-- Aggregate error raised when every provider has failed: the attempt
count is the length of the full configured list and the reasons are joined
in attempt order. -/
def allFailedMsg (total : Nat) (errs : List String) : String :=
  "All LLM providers failed after " ++ toString total ++ " attempts:\n"
    ++ String.intercalate "\n" errs

/-- Loop of `generate_content` over the remaining providers, carrying the
accumulated `errors` list.  The second component of the result records
which providers were actually dispatched to a generation call, in order,
so that non-invocation of later providers is observable. -/
def generate_content_aux (outcome : String → Except String String) (total : Nat) :
    List String → List String → Except String String × List String
  | [], errs => (.error (allFailedMsg total errs), [])
  | p :: rest, errs =>
    if p ∈ known_providers then
      match outcome p with
      | .ok t => (.ok t, [p])
      | .error e =>
        let r := generate_content_aux outcome total rest (errs ++ [p ++ ": " ++ e])
        (r.1, p :: r.2)
    else
      generate_content_aux outcome total rest errs

/-- The `generate_content` fallback chain over a configured provider list,
with per-provider outcomes given by `outcome`. -/
def generate_content (providers : List String) (outcome : String → Except String String) :
    Except String String × List String :=
  generate_content_aux outcome providers.length providers []

theorem generate_content_aux_success (outcome : String → Except String String) (total : Nat)
    (p : String) (post : List String) (t : String) (hp : p ∈ known_providers)
    (hok : outcome p = .ok t) :
    ∀ pre : List String, (∀ q ∈ pre, q ∈ known_providers) →
      (∀ q ∈ pre, ∃ e, outcome q = .error e) →
      ∀ errs : List String,
        generate_content_aux outcome total (pre ++ p :: post) errs = (.ok t, pre ++ [p]) := by
  intro pre
  induction pre with
  | nil =>
    intro _ _ errs
    simp [generate_content_aux, hp, hok]
  | cons q rest ih =>
    intro hknown hfail errs
    have hq : q ∈ known_providers := hknown q (List.mem_cons_self _ _)
    rcases hfail q (List.mem_cons_self _ _) with ⟨e, he⟩
    have htail := ih (fun r hr => hknown r (List.mem_cons_of_mem _ hr))
      (fun r hr => hfail r (List.mem_cons_of_mem _ hr)) (errs ++ [q ++ ": " ++ e])
    simp [generate_content_aux, hq, he, htail]

theorem generate_content_aux_all_fail (outcome : String → Except String String) (total : Nat) :
    ∀ providers : List String, (∀ q ∈ providers, q ∈ known_providers) →
      (∀ q ∈ providers, ∃ e, outcome q = .error e) →
      ∀ errs : List String,
        generate_content_aux outcome total providers errs
          = (.error (allFailedMsg total
              (errs ++ providers.map (fun q => q ++ ": " ++ errText (outcome q)))), providers) := by
  intro providers
  induction providers with
  | nil =>
    intro _ _ errs
    simp [generate_content_aux]
  | cons q rest ih =>
    intro hknown hfail errs
    have hq : q ∈ known_providers := hknown q (List.mem_cons_self _ _)
    rcases hfail q (List.mem_cons_self _ _) with ⟨e, he⟩
    have htail := ih (fun r hr => hknown r (List.mem_cons_of_mem _ hr))
      (fun r hr => hfail r (List.mem_cons_of_mem _ hr)) (errs ++ [q ++ ": " ++ e])
    simp [generate_content_aux, hq, he, htail, errText]

/-- C3: providers are attempted strictly in configured order; the first
success is returned at once and no later provider is dispatched (the
invocation trace is exactly the failing prefix plus the winner); only when
every provider fails does the call raise, with a message listing every
provider and its failure reason in attempt order. -/
theorem generate_content_fallback_chain :
    (∀ (outcome : String → Except String String) (pre : List String) (p : String)
        (post : List String) (t : String),
      (∀ q ∈ pre, q ∈ known_providers) → p ∈ known_providers →
      (∀ q ∈ pre, ∃ e, outcome q = .error e) → outcome p = .ok t →
      generate_content (pre ++ p :: post) outcome = (.ok t, pre ++ [p]))
    ∧ (∀ (outcome : String → Except String String) (providers : List String),
      (∀ q ∈ providers, q ∈ known_providers) →
      (∀ q ∈ providers, ∃ e, outcome q = .error e) →
      generate_content providers outcome
        = (.error (allFailedMsg providers.length
            (providers.map (fun q => q ++ ": " ++ errText (outcome q)))), providers)) := by
  constructor
  · intro outcome pre p post t hknown hp hfail hok
    exact generate_content_aux_success outcome (pre ++ p :: post).length p post t hp hok
      pre hknown hfail []
  · intro outcome providers hknown hfail
    have h := generate_content_aux_all_fail outcome providers.length providers hknown hfail []
    simpa [generate_content] using h

/-- Demonstration outcome assignment for the C3 witness: the first
provider hits a quota error, the second succeeds, the third would
succeed but must never be dispatched. -/
def demoOutcome : String → Except String String :=
  fun q =>
    if q = "gemini" then .error "429 quota exceeded"
    else if q = "openai" then .ok "openai output"
    else .ok "anthropic output"

/-- C3 witness: with providers `[gemini, openai, anthropic]` where gemini
fails with a quota error and openai succeeds, the result is the openai
output and anthropic is never invoked; and when both providers of a
two-element chain fail, the aggregate error lists both reasons in
order. -/
theorem generate_content_fallback_chain_witness :
    generate_content ["gemini", "openai", "anthropic"] demoOutcome
        = (.ok "openai output", ["gemini", "openai"])
    ∧ generate_content ["gemini", "openai"]
          (fun q => .error (if q = "gemini" then "quota" else "down"))
        = (.error ("All LLM providers failed after 2 attempts:\n"
            ++ "gemini: quota\nopenai: down"), ["gemini", "openai"]) := by
  constructor
  · have h := generate_content_fallback_chain.1 demoOutcome ["gemini"] "openai" ["anthropic"]
      "openai output" (by decide)
      (by decide)
      (by
        intro q hq
        simp at hq
        subst hq
        exact ⟨"429 quota exceeded", rfl⟩)
      rfl
    simpa using h
  · have h := generate_content_fallback_chain.2
      (fun q => .error (if q = "gemini" then "quota" else "down")) ["gemini", "openai"]
      (by decide)
      (by
        intro q hq
        exact ⟨if q = "gemini" then "quota" else "down", rfl⟩)
    simpa [allFailedMsg, errText, String.intercalate] using h

/-! ## ai_analysis_service.py -/

/-- Character of `l` at position `i`, if any. -/
def charAt (l : List Char) (i : Nat) : Option Char :=
  (l.drop i).head?

/-- Length of the maximal whitespace run of `text` starting at `i`
(the deterministic extent of a greedy `\s*` followed by a
non-whitespace requirement). -/
def wsRunLen (text : List Char) (i : Nat) : Nat :=
  ((text.drop i).takeWhile pyWs).length

/-- ASCII letters; under `re.IGNORECASE` both `[A-Z]` and `[a-z]` match
exactly these. -/
def asciiLetter (c : Char) : Bool :=
  ('a' ≤ c && c ≤ 'z') || ('A' ≤ c && c ≤ 'Z')

/-- Length of the maximal ASCII-letter run of `text` starting at `i`. -/
def letterRunLen (text : List Char) (i : Nat) : Nat :=
  ((text.drop i).takeWhile asciiLetter).length

/-- Backtracking of the greedy `\s*` before the mandatory newline of the
section-header pattern: try the largest whitespace advance first and
return the position just after the matched `\n`. -/
def lastNlEndAux (text : List Char) (pos2 : Nat) : Nat → Option Nat
  | 0 => if charAt text pos2 = some '\n' then some (pos2 + 1) else none
  | b + 1 =>
    if charAt text (pos2 + b + 1) = some '\n' then some (pos2 + b + 2)
    else lastNlEndAux text pos2 b

/-- Match `\s*\n` at `pos2` with greedy backtracking, returning the
position after the newline. -/
def lastNlEnd (text : List Char) (pos2 : Nat) : Option Nat :=
  lastNlEndAux text pos2 (wsRunLen text pos2)

/-- Match `:?\s*\n` at `pos1` (the optional colon branch is preferred,
and a colon not followed by a valid tail cannot be rescued by the empty
branch since `:` is not a newline). -/
def tailTry (text : List Char) (pos1 : Nat) : Option Nat :=
  if charAt text pos1 = some ':' then lastNlEnd text (pos1 + 1)
  else lastNlEnd text pos1

/-- Backtracking of the first greedy `\s*` of the header tail
`\s*:?\s*\n` at `j`: try the largest advance `a` first. -/
def tailAux (text : List Char) (j : Nat) : Nat → Option Nat
  | 0 => tailTry text j
  | a + 1 =>
    match tailTry text (j + a + 1) with
    | some p => some p
    | none => tailAux text j a

/-- Match the header tail `\s*:?\s*\n` at `j`, returning the position
after the newline (the start of the captured group). -/
def tailMatch (text : List Char) (j : Nat) : Option Nat :=
  tailAux text j (wsRunLen text j)

/-- The lookahead `(?=\n\s*[A-Z][a-z]+\s*:|$)` of the section pattern at
position `q` (with `re.IGNORECASE`, both character classes are ASCII
letters; `$` without `re.MULTILINE` matches at the end of the string or
before a trailing final newline). -/
def lookaheadOk (text : List Char) (q : Nat) : Bool :=
  (q == text.length) ||
  (q + 1 == text.length && charAt text q == some '\n') ||
  (charAt text q == some '\n' &&
    (let i2 := q + 1 + wsRunLen text (q + 1)
     (match charAt text i2 with
      | some c => asciiLetter c
      | none => false) &&
     (let lrun := letterRunLen text (i2 + 1)
      decide (1 ≤ lrun) &&
      charAt text (i2 + 1 + lrun + wsRunLen text (i2 + 1 + lrun)) == some ':')))

/-- Lazy extension of the captured group `(.*?)`: the smallest end
position at or after `p` where the lookahead holds (the lookahead always
holds at the end of the string). -/
def lazyEndAux (text : List Char) : Nat → Nat → Nat
  | p, 0 => p
  | p, fuel + 1 => if lookaheadOk text p then p else lazyEndAux text (p + 1) fuel

/-- End position of the lazily captured section body starting at `p`. -/
def lazyEnd (text : List Char) (p : Nat) : Nat :=
  lazyEndAux text p (text.length + 1 - p)

/-- Case-insensitive literal match of `kw` in `text` at position `i`. -/
def litMatchesAt (text kw : List Char) (i : Nat) : Bool :=
  decide (kw.length ≤ (text.drop i).length) &&
  ((text.drop i).take kw.length).map lowerChar == kw.map lowerChar

/-- Attempt the section pattern after its `(?:^|\n)` prefix, at position
`a0`: skip whitespace, match the header keyword, match the header tail,
then capture lazily.  Returns the bounds of the captured group. -/
def attemptAt (text kw : List Char) (a0 : Nat) : Option (Nat × Nat) :=
  let k0 := a0 + wsRunLen text a0
  if litMatchesAt text kw k0 then
    match tailMatch text (k0 + kw.length) with
    | some p => some (p, lazyEnd text p)
    | none => none
  else none

/-- Leftmost search of `re.search` for the section pattern
`(?:^|\n)\s*<kw>\s*:?\s*\n(.*?)(?=\n\s*[A-Z][a-z]+\s*:|$)`: try each
start position in order; at position 0 the zero-width `^` branch is
preferred over consuming a newline. -/
def searchSectionAux (text kw : List Char) : Nat → Nat → Option (Nat × Nat)
  | _, 0 => none
  | i, fuel + 1 =>
    let res :=
      if i = 0 then
        match attemptAt text kw 0 with
        | some r => some r
        | none => if charAt text 0 = some '\n' then attemptAt text kw 1 else none
      else if charAt text i = some '\n' then attemptAt text kw (i + 1)
      else none
    match res with
    | some r => some r
    | none => searchSectionAux text kw (i + 1) fuel

/-- Bounds of the group captured by the first (leftmost) match of the
section pattern for header keyword `kw`, if any. -/
def searchSection (text kw : List Char) : Option (Nat × Nat) :=
  searchSectionAux text kw 0 (text.length + 1)

/-- The `_extract_section` helper: for the first header keyword whose
pattern matches, return the captured group stripped of surrounding
whitespace; an empty string when no keyword matches. -/
def extract_section (text : String) : List String → String
  | [] => ""
  | kw :: rest =>
    match searchSection text.data kw.data with
    | some pq => String.mk (stripList (sliceList text.data pq.1 pq.2))
    | none => extract_section text rest

/-- Header keywords tried for the Findings section. -/
def findings_headers : List String :=
  ["findings", "résultats", "observations"]

/-- Header keywords tried for the Impression section. -/
def impression_headers : List String :=
  ["impression", "conclusion", "synthèse"]

/-- Language-specific validation messages of `detect_inconsistencies`. -/
structure Messages where
  missing_sections : String
  cannot_check : String
  missing_findings : String
  missing_impression : String
  contradiction_normal_abnormal : String
  contradiction_abnormal_normal : String
  contradiction_details_1 : String
  contradiction_details_2 : String
  unfilled_placeholder : String
  brief_impression : String
deriving DecidableEq, Repr

/-- The `messages['en']` dictionary. -/
def messages_en : Messages where
  missing_sections := "Report is missing both Findings and Impression sections"
  cannot_check := "Cannot perform consistency check without key sections"
  missing_findings := "Findings section is empty or missing"
  missing_impression := "Impression/Conclusion section is empty or missing"
  contradiction_normal_abnormal :=
    "Contradiction: Findings suggest normal exam but impression indicates abnormality"
  contradiction_abnormal_normal :=
    "Contradiction: Findings describe abnormalities but impression suggests normal exam"
  contradiction_details_1 :=
    "Findings contain \x27normal/unremarkable\x27 while impression suggests abnormality"
  contradiction_details_2 :=
    "Findings describe abnormalities while impression suggests normal exam"
  unfilled_placeholder := "Unfilled placeholder detected"
  brief_impression := "Impression section is very brief and may be incomplete"

/-- The `messages['fr']` dictionary. -/
def messages_fr : Messages where
  missing_sections := "Le rapport manque des sections Résultats et Impression"
  cannot_check := "Impossible d\x27effectuer une vérification de cohérence sans sections clés"
  missing_findings := "La section Résultats est vide ou manquante"
  missing_impression := "La section Impression/Conclusion est vide ou manquante"
  contradiction_normal_abnormal :=
    "Contradiction: Les résultats suggèrent un examen normal mais l\x27impression indique une anomalie"
  contradiction_abnormal_normal :=
    "Contradiction: Les résultats décrivent des anomalies mais l\x27impression suggère un examen normal"
  contradiction_details_1 :=
    "Les résultats contiennent \x27normal/sans particularité\x27 tandis que l\x27impression suggère une anomalie"
  contradiction_details_2 :=
    "Les résultats décrivent des anomalies tandis que l\x27impression suggère un examen normal"
  unfilled_placeholder := "Espace réservé non rempli détecté"
  brief_impression := "La section Impression est très brève et peut être incomplète"

/-- The lookup `messages.get(language, messages['en'])`. -/
def getMessages (language : String) : Messages :=
  if language = "en" then messages_en
  else if language = "fr" then messages_fr
  else messages_en

/-- Position of the first occurrence of `c` in `text` at or after `i`. -/
def findCharFrom (text : List Char) (c : Char) (i : Nat) : Option Nat :=
  ((text.drop i).findIdx? (· == c)).map (i + ·)

/-- Match `:\s*\[(.*?)\]` at `pos` (after a label): a colon, greedy
whitespace, an opening bracket, then a lazy capture up to the first
closing bracket.  Returns the bounds of the captured group. -/
def bracketAt (text : List Char) (pos : Nat) : Option (Nat × Nat) :=
  if charAt text pos = some ':' then
    let pos2 := pos + 1 + wsRunLen text (pos + 1)
    if charAt text pos2 = some '[' then
      match findCharFrom text ']' (pos2 + 1) with
      | some jc => some (pos2 + 1, jc)
      | none => none
    else none
  else none

/-- Try the label suffix variants in the preference order of the regex
alternation; a suffix whose bracket tail fails is backtracked. -/
def trySuffixes (text : List Char) (pos : Nat) : List (List Char) → Option (Nat × Nat)
  | [] => none
  | suf :: rest =>
    if litMatchesAt text suf pos then
      match bracketAt text (pos + suf.length) with
      | some r => some r
      | none => trySuffixes text pos rest
    else trySuffixes text pos rest

/-- Leftmost search for `<label><suffix>:\s*\[(.*?)\]` under
`re.IGNORECASE`, as used on `ERRORS?`, `WARNINGS?` and
`INCONSISTENC(?:Y|IES)`. -/
def searchLabelAux (text label : List Char) (sufs : List (List Char)) :
    Nat → Nat → Option (Nat × Nat)
  | _, 0 => none
  | i, fuel + 1 =>
    match (if litMatchesAt text label i then trySuffixes text (i + label.length) sufs
           else none) with
    | some r => some r
    | none => searchLabelAux text label sufs (i + 1) fuel

/-- Bounds of the bracketed list captured for a label, if any. -/
def searchLabelList (text label : List Char) (sufs : List (List Char)) :
    Option (Nat × Nat) :=
  searchLabelAux text label sufs 0 (text.length + 1)

/-- Python list comprehension
`[e.strip(chars) for e in content.split(",") if e.strip()]` with
`chars = " \"\x27"`. -/
def splitCommaStrip (content : List Char) : List String :=
  ((content.splitOn ',').filter (fun e => stripList e ≠ [])).map
    (fun e => String.mk (((e.dropWhile ([' ', '"', '\x27'].contains ·)).reverse.dropWhile
        ([' ', '"', '\x27'].contains ·)).reverse))

/-- Leftmost search for `SEVERITY:\s*(\w+)` under `re.IGNORECASE`,
returning the lowercased group. -/
def searchSeverityAux (text : List Char) : Nat → Nat → Option String
  | _, 0 => none
  | i, fuel + 1 =>
    let res :=
      if litMatchesAt text ("severity".data) i ∧ charAt text (i + 8) = some ':' then
        let p := i + 9 + wsRunLen text (i + 9)
        let wrun := ((text.drop p).takeWhile isWordChar).length
        if 1 ≤ wrun then some (String.mk ((sliceList text p (p + wrun)).map lowerChar))
        else none
      else none
    match res with
    | some r => some r
    | none => searchSeverityAux text (i + 1) fuel

/-- Severity extracted by `_parse_validation_response`, if any. -/
def searchSeverity (text : List Char) : Option String :=
  searchSeverityAux text 0 (text.length + 1)

/-- Parsed fields of the AI validation response. -/
structure ParsedValidation where
  errors : List String
  warnings : List String
  inconsistencies : List String
  severity : String
deriving DecidableEq, Repr

/-- The `_parse_validation_response` helper. -/
def parse_validation_response (response : String) : ParsedValidation :=
  let text := response.data
  { errors :=
      match searchLabelList text ("error".data) [['s'], []] with
      | some ab => splitCommaStrip (sliceList text ab.1 ab.2)
      | none => []
    warnings :=
      match searchLabelList text ("warning".data) [['s'], []] with
      | some ab => splitCommaStrip (sliceList text ab.1 ab.2)
      | none => []
    inconsistencies :=
      match searchLabelList text ("inconsistenc".data) [['y'], ['i', 'e', 's']] with
      | some ab => splitCommaStrip (sliceList text ab.1 ab.2)
      | none => []
    severity := (searchSeverity text).getD "medium" }

/-- Terms whose presence marks a section as describing a normal exam. -/
def normal_terms : List String :=
  ["normal", "unremarkable", "no abnormality", "pas d\x27anomalie"]

/-- Terms whose presence marks a section as describing an abnormality. -/
def abnormal_terms : List String :=
  ["abnormal", "lesion", "mass", "fracture", "anomalie"]

/-- Existence of a match of `<open>[^<close>]+<close>` in `l`
(an opening delimiter, at least one non-closing character, then the
closing delimiter). -/
def hasDelim (openc closec : Char) : List Char → Bool
  | [] => false
  | c :: t =>
    (c == openc &&
      (let run := (t.takeWhile (fun d => !(d == closec))).length
       decide (1 ≤ run) && ((t.drop run).head? == some closec)))
    || hasDelim openc closec t

/-- Errors appended by the unfilled-placeholder loop, in pattern order;
each message embeds the source text of the regex that fired. -/
def placeholder_errors (msg : Messages) (s : String) : List String :=
  (if hasDelim '<' '>' s.data then [msg.unfilled_placeholder ++ ": <[^>]+>"] else [])
  ++ (if hasDelim '\x7b' '\x7d' s.data then
        [msg.unfilled_placeholder ++ ": \\\x7b[^\x7d]+\\\x7d"] else [])
  ++ (if inStr "todo" (lowerStr s) then [msg.unfilled_placeholder ++ ": TODO"] else [])
  ++ (if inStr "fill" (lowerStr s) then [msg.unfilled_placeholder ++ ": FILL"] else [])
  ++ (if inStr "xxx" (lowerStr s) then [msg.unfilled_placeholder ++ ": XXX"] else [])

/-- Output triple of `_rule_based_validation`. -/
structure RuleChecks where
  errors : List String
  warnings : List String
  details : List String
deriving DecidableEq, Repr

/-- The `_rule_based_validation` helper. -/
def rule_based_validation (findings impression : String) (msg : Messages) : RuleChecks :=
  let fl := lowerStr findings
  let il := lowerStr impression
  let findings_normal := normal_terms.any (fun t => inStr t fl)
  let findings_abnormal := abnormal_terms.any (fun t => inStr t fl)
  let impression_normal := normal_terms.any (fun t => inStr t il)
  let impression_abnormal := abnormal_terms.any (fun t => inStr t il)
  let bothPresent := findings ≠ "" ∧ impression ≠ ""
  let e1d1 :=
    if bothPresent ∧ findings_normal ∧ impression_abnormal then
      ([msg.contradiction_normal_abnormal], [msg.contradiction_details_1])
    else ([], [])
  let e2d2 :=
    if bothPresent ∧ findings_abnormal ∧ impression_normal then
      ([msg.contradiction_abnormal_normal], [msg.contradiction_details_2])
    else ([], [])
  { errors := e1d1.1 ++ e2d2.1 ++ placeholder_errors msg (findings ++ impression)
    warnings :=
      (if findings = "" then [msg.missing_findings] else [])
      ++ (if impression = "" then [msg.missing_impression] else [])
      ++ (if impression ≠ "" ∧ (pySplitWs impression).length < 3 then
            [msg.brief_impression] else [])
    details := e1d1.2 ++ e2d2.2 }

/-- Result dictionary of `detect_inconsistencies`. -/
structure ValidationResult where
  errors : List String
  warnings : List String
  is_consistent : Bool
  severity : String
  details : List String
deriving DecidableEq, Repr

/-- The `detect_inconsistencies` entry point.  The outcome of the LLM
call is an explicit parameter: `.ok analysis` is the raw response text,
`.error e` is the exception caught by the handler around the AI block
(which in the source encloses the rule-based checks as well). -/
def detect_inconsistencies (report_text : String) (language : String)
    (llm : Except String String) : ValidationResult :=
  let msg := getMessages language
  let findings := extract_section report_text findings_headers
  let impression := extract_section report_text impression_headers
  if findings = "" ∧ impression = "" then
    { errors := [msg.missing_sections]
      warnings := []
      is_consistent := false
      severity := "high"
      details := [msg.cannot_check] }
  else
    match llm with
    | .error e =>
      { errors := ["Validation service error: " ++ e]
        warnings := []
        is_consistent := false
        severity := "unknown"
        details := [] }
    | .ok analysis =>
      let parsed := parse_validation_response analysis
      let rb := rule_based_validation findings impression msg
      let errors := parsed.errors ++ rb.errors
      let warnings := parsed.warnings ++ rb.warnings
      let details := parsed.inconsistencies ++ rb.details
      { errors := errors
        warnings := warnings
        is_consistent := decide (errors = [])
        severity :=
          if errors ≠ [] then parsed.severity
          else if warnings ≠ [] then "medium" else "low"
        details := details }

/-! ## Claim theorems for detect_inconsistencies -/

/-- C9: when neither a Findings-type nor an Impression-type section can
be extracted, `detect_inconsistencies` short-circuits — independently of
the LLM outcome — with `is_consistent = false`, severity `high`, no
warnings, the single missing-sections error and the single explanatory
detail. -/
theorem detect_inconsistencies_missing_sections (report language : String)
    (llm : Except String String)
    (hf : extract_section report findings_headers = "")
    (hi : extract_section report impression_headers = "") :
    detect_inconsistencies report language llm =
      { errors := [(getMessages language).missing_sections]
        warnings := []
        is_consistent := false
        severity := "high"
        details := [(getMessages language).cannot_check] } := by
  simp only [detect_inconsistencies]
  rw [hf, hi]
  simp

/-- C9 witness: a report with no section header at all short-circuits
with the English messages, whatever the LLM would have answered. -/
theorem detect_inconsistencies_missing_sections_witness :
    detect_inconsistencies "hello" "en" (.ok "x")
      = { errors := ["Report is missing both Findings and Impression sections"]
          warnings := []
          is_consistent := false
          severity := "high"
          details := ["Cannot perform consistency check without key sections"] } := by
  exact detect_inconsistencies_missing_sections "hello" "en" (.ok "x") (by decide) (by decide)

/-- C2 counterexample: on a report with a Findings section and a failing
LLM call, the returned result carries the AI-failure error entry but an
empty warnings list, although the rule-based checks on the extracted
sections produce a missing-impression warning — so the rule-based
outputs are NOT still returned. -/
theorem detect_inconsistencies_drops_rule_checks :
    (detect_inconsistencies "Findings:\nNormal study\n" "en" (.error "boom")).errors
        = ["Validation service error: boom"]
    ∧ (detect_inconsistencies "Findings:\nNormal study\n" "en" (.error "boom")).warnings = []
    ∧ (rule_based_validation (extract_section "Findings:\nNormal study\n" findings_headers)
        (extract_section "Findings:\nNormal study\n" impression_headers)
        (getMessages "en")).warnings
        = ["Impression/Conclusion section is empty or missing"] := by
  refine ⟨by decide, by decide, by decide⟩

/-- C2 (amended): when at least one section is present, a raised LLM
exception is recovered locally into a result containing only the error
entry `Validation service error: <e>` (severity `unknown`, empty
warnings and details — the rule-based checks are skipped, because the
handler encloses them); an LLM response in which the parser finds no
labelled lists degrades gracefully instead: the rule-based checks run
and their outputs are exactly what is returned. -/
theorem detect_inconsistencies_ai_failure_spec :
    (∀ (report language e : String),
      ¬(extract_section report findings_headers = ""
          ∧ extract_section report impression_headers = "") →
      detect_inconsistencies report language (.error e) =
        { errors := ["Validation service error: " ++ e]
          warnings := []
          is_consistent := false
          severity := "unknown"
          details := [] })
    ∧ (∀ (report language analysis : String),
      ¬(extract_section report findings_headers = ""
          ∧ extract_section report impression_headers = "") →
      parse_validation_response analysis = ⟨[], [], [], "medium"⟩ →
      detect_inconsistencies report language (.ok analysis) =
        (let rb := rule_based_validation (extract_section report findings_headers)
            (extract_section report impression_headers) (getMessages language)
         { errors := rb.errors
           warnings := rb.warnings
           is_consistent := decide (rb.errors = [])
           severity :=
             if rb.errors ≠ [] then "medium"
             else if rb.warnings ≠ [] then "medium" else "low"
           details := rb.details })) := by
  constructor
  · intro report language e h
    simp only [detect_inconsistencies]
    rw [if_neg h]
  · intro report language analysis h hparse
    simp only [detect_inconsistencies]
    rw [if_neg h, hparse]
    simp

/-- C2 witness: concrete instances of both conjuncts of the amended
claim — the exception path returns only the error entry, and the
no-label response path returns exactly the rule-based outputs. -/
theorem detect_inconsistencies_ai_failure_spec_witness :
    detect_inconsistencies "Findings:\nNormal study\n" "en" (.error "llm down")
      = { errors := ["Validation service error: llm down"]
          warnings := []
          is_consistent := false
          severity := "unknown"
          details := [] }
    ∧ detect_inconsistencies "Findings:\nNormal study\n" "en" (.ok "gibberish")
      = { errors := []
          warnings := ["Impression/Conclusion section is empty or missing"]
          is_consistent := true
          severity := "medium"
          details := [] } := by
  constructor
  · exact detect_inconsistencies_ai_failure_spec.1 "Findings:\nNormal study\n" "en" "llm down"
      (by decide)
  · have h := detect_inconsistencies_ai_failure_spec.2 "Findings:\nNormal study\n" "en"
      "gibberish" (by decide) (by decide)
    rw [h]
    decide

/-! ## main.py — template auto-selection -/

/-- Active report template row, as `choose_template_auto` consumes it. -/
structure Template where
  title : String
  keywords : List String
  is_active : Bool
deriving DecidableEq, Repr

/-- The `anatomical_keywords` set (highest priority tier). -/
def anatomical_keywords : List String :=
  ["segment", "segmentaire", "foie", "hépatique", "hepatique", "biliaire", "bile",
   "vésicule", "vesicule", "cholédoque", "choledoque", "voies biliaires",
   "intestin", "grêle", "grele", "iléon", "ileon", "jéjunum", "jejunum", "duodénum",
   "duodenum", "côlon", "colon", "rectum", "sigmoïde", "sigmoide", "caecum", "cecum",
   "vertèbre", "vertebre", "rachis", "cervical", "thoracique", "lombaire", "sacré", "sacre",
   "disque", "disc", "l1", "l2", "l3", "l4", "l5", "s1", "c1", "c2", "c3", "c4", "c5",
   "c6", "c7",
   "genou", "cheville", "épaule", "epaule", "coude", "poignet", "hanche",
   "cérébr", "cerebr", "encéph", "enceph", "cerveau",
   "pulmonaire", "poumon", "thorax", "médiastin", "mediastin",
   "sein", "mammaire", "breast",
   "rein", "rénal", "renal", "pancréa", "pancrea", "rate", "splén", "splen"]

/-- The `specific_keywords` set (medium-high priority tier). -/
def specific_keywords : List String :=
  ["lésion", "lesion", "masse", "tumeur", "kyste", "nodule",
   "sténose", "stenose", "dilatation", "compression", "hernie",
   "fracture", "luxation", "rupture", "déchirure", "dechirure",
   "hypodense", "hyperdense", "rehaussement", "enhancement",
   "ischémie", "ischemie", "infarctus", "hémorragie", "hemorragie"]

/-- Weight contributed by one template keyword against the lowercased
indication `low`: 0 for a non-matching keyword, 10 for an anatomical
match, 3 for a specific medical term, 1 for a generic match. -/
def keyword_weight (low kw : String) : Nat :=
  let kl := lowerStr kw
  if ¬ (inStr kl low = true) then 0
  else if anatomical_keywords.any (fun a => inStr a kl) then 10
  else if specific_keywords.any (fun s => inStr s kl) then 3
  else 1

/-- Title bonus of `score_template`: 5 when the lowercased title, or one
of its whitespace-separated words, occurs in the text. -/
def title_bonus (low : String) (t : Template) : Nat :=
  if inStr (lowerStr t.title) low
      || (pySplitWs (lowerStr t.title)).any (fun w => inStr w low) then 5 else 0

/-- The `score_template` weighted sum (all weights are small integers, so
the Python float accumulation is exact and is modelled in `Nat`). -/
def score_template (low : String) (t : Template) : Nat :=
  (t.keywords.map (keyword_weight low)).sum + title_bonus low t

/-- Stable descending insertion for the scored-template sort, as Python
`scored_templates.sort(key=lambda x: x[1], reverse=True)`. -/
def insertScored (x : Template × Nat) : List (Template × Nat) → List (Template × Nat)
  | [] => [x]
  | y :: t => if x.2 < y.2 then y :: insertScored x t else x :: y :: t

/-- Stable descending sort of scored templates. -/
def sortScored : List (Template × Nat) → List (Template × Nat)
  | [] => []
  | x :: t => insertScored x (sortScored t)

/-- Raw matching-keyword count of the fallback policy. -/
def keyword_count (low : String) (t : Template) : Nat :=
  (t.keywords.filter (fun k => inStr (lowerStr k) low)).length

/-- Python `max(templates, key=keyword_count)`: the first template
attaining the maximal count. -/
def maxByCount (low : String) : Template → List Template → Template
  | best, [] => best
  | best, t :: rest =>
    if keyword_count low best < keyword_count low t then maxByCount low t rest
    else maxByCount low best rest

/-- The `choose_template_auto` selector over the active templates. -/
def choose_template_auto (text : String) (templates : List Template) : Option Template :=
  match templates.filter (fun t => t.is_active) with
  | [] => none
  | a :: rest =>
    let low := lowerStr text
    match sortScored ((a :: rest).map (fun t => (t, score_template low t))) with
    | [] => none
    | (best, s) :: _ =>
      if 0 < s then some best
      else some (maxByCount low a rest)

theorem insertScored_ne_nil (x : Template × Nat) (l : List (Template × Nat)) :
    insertScored x l ≠ [] := by
  cases l with
  | nil => simp [insertScored]
  | cons y t =>
    by_cases h : x.2 < y.2 <;> simp [insertScored, h]

theorem sum_filter_ne_zero (l : List Nat) : l.sum = (l.filter (fun w => w ≠ 0)).sum := by
  induction l with
  | nil => rfl
  | cons a t ih =>
    by_cases h : a = 0
    · subst h
      simpa [List.filter_cons] using ih
    · simp [List.filter_cons, h, List.sum_cons, ih]

/-- C7: the selector returns `none` exactly when the active-template
catalog is empty; any non-empty catalog yields some template, falling
back to the raw keyword count when every weighted score is zero. -/
theorem choose_template_auto_none_iff (text : String) (templates : List Template) :
    choose_template_auto text templates = none ↔
      templates.filter (fun t => t.is_active) = [] := by
  cases hact : templates.filter (fun t => t.is_active) with
  | nil => simp [choose_template_auto, hact]
  | cons a rest =>
    simp only [choose_template_auto, hact]
    rcases hs : sortScored ((a :: rest).map
        (fun t => (t, score_template (lowerStr text) t))) with _ | ⟨⟨best, s⟩, tail⟩
    · exact absurd hs (by simpa [sortScored] using insertScored_ne_nil _ _)
    · by_cases h0 : 0 < s <;> simp [h0]

/-- C8: a template whose sole contribution is one matching
anatomical-tier keyword scores 10, one whose contributions are three
generic-tier matches scores 3, and the selector prefers the former in
either catalog order. -/
theorem anatomical_outranks_generic (text : String) (A B : Template)
    (hAact : A.is_active = true) (hBact : B.is_active = true)
    (hA : (A.keywords.map (keyword_weight (lowerStr text))).filter (fun w => w ≠ 0) = [10])
    (hB : (B.keywords.map (keyword_weight (lowerStr text))).filter (fun w => w ≠ 0)
        = [1, 1, 1])
    (htA : title_bonus (lowerStr text) A = 0) (htB : title_bonus (lowerStr text) B = 0) :
    score_template (lowerStr text) A = 10
    ∧ score_template (lowerStr text) B = 3
    ∧ choose_template_auto text [A, B] = some A
    ∧ choose_template_auto text [B, A] = some A := by
  have hsA : score_template (lowerStr text) A = 10 := by
    show (A.keywords.map (keyword_weight (lowerStr text))).sum + title_bonus (lowerStr text) A
        = 10
    rw [sum_filter_ne_zero, hA, htA]
    rfl
  have hsB : score_template (lowerStr text) B = 3 := by
    show (B.keywords.map (keyword_weight (lowerStr text))).sum + title_bonus (lowerStr text) B
        = 3
    rw [sum_filter_ne_zero, hB, htB]
    rfl
  refine ⟨hsA, hsB, ?_, ?_⟩
  · have hfilter : [A, B].filter (fun t => t.is_active) = [A, B] := by
      simp [List.filter_cons, hAact, hBact]
    simp [choose_template_auto, hfilter, hsA, hsB, sortScored, insertScored]
  · have hfilter : [B, A].filter (fun t => t.is_active) = [B, A] := by
      simp [List.filter_cons, hAact, hBact]
    simp [choose_template_auto, hfilter, hsA, hsB, sortScored, insertScored]

/-- C8 witness: a one-anatomical-keyword template beats a
three-generic-keyword template on a concrete indication, in either
catalog order. -/
theorem anatomical_outranks_generic_witness :
    choose_template_auto "scanner du foie: ct abdomen patient"
        [⟨"zq", ["foie"], true⟩, ⟨"wq", ["ct", "abdomen", "patient"], true⟩]
      = some ⟨"zq", ["foie"], true⟩
    ∧ choose_template_auto "scanner du foie: ct abdomen patient"
        [⟨"wq", ["ct", "abdomen", "patient"], true⟩, ⟨"zq", ["foie"], true⟩]
      = some ⟨"zq", ["foie"], true⟩ := by
  have h := anatomical_outranks_generic "scanner du foie: ct abdomen patient"
    ⟨"zq", ["foie"], true⟩ ⟨"wq", ["ct", "abdomen", "patient"], true⟩
    rfl rfl (by decide) (by decide) (by decide) (by decide)
  exact ⟨h.2.2.1, h.2.2.2⟩
